import Mathlib

/-!
Verification of the plaintext pixel-matrix codec and the synthetic image
generators of the PPA image-processing repository.

A text file is modelled as the list of its newline-terminated lines, each
line being the list of its characters.  Python string operations that the
code relies on (`str.split()` with no argument, `int(...)`, `str(...)`,
`" ".join(...)`) are embedded as executable Lean functions below.
-/

namespace PPA

/-- A line of a text file: its characters, without the terminating newline. -/
abbrev Line := List Char

/-- Whitespace characters recognised by Python `str.split()` with no
argument (space, tab, newline, carriage return, vertical tab, form feed). -/
def isPyWs (c : Char) : Bool :=
  c.toNat = 32 || c.toNat = 9 || c.toNat = 10 || c.toNat = 13 ||
    c.toNat = 11 || c.toNat = 12

/-- ASCII decimal digit test. -/
def isDigitCh (c : Char) : Bool :=
  48 ≤ c.toNat && c.toNat ≤ 57

/-- Numeric value of an ASCII digit character. -/
def digitVal (c : Char) : Nat := c.toNat - 48

/-- The ASCII digit character for a digit value below ten. -/
def digitCh (d : Nat) : Char :=
  match d with
  | 0 => '0'
  | 1 => '1'
  | 2 => '2'
  | 3 => '3'
  | 4 => '4'
  | 5 => '5'
  | 6 => '6'
  | 7 => '7'
  | 8 => '8'
  | _ => '9'

/-- Fuel-bounded worker for `natDigits`; `n + 1` units of fuel always
suffice, so the out-of-fuel branch is never reached from `natDigits`. -/
def natDigitsFuel : Nat → Nat → List Char
  | 0, _ => []
  | fuel + 1, n =>
    if n < 10 then [digitCh n]
    else natDigitsFuel fuel (n / 10) ++ [digitCh (n % 10)]

/-- Decimal digits of a natural number, most significant first: the model of
Python `str(n)` for a non-negative integer `n`. -/
def natDigits (n : Nat) : List Char := natDigitsFuel (n + 1) n

/-- Model of Python `" ".join(tokens)`. -/
def joinSp : List Line → Line
  | [] => []
  | [t] => t
  | t :: ts => t ++ (' ' :: joinSp ts)

/-- Worker for `pySplit`: `acc` holds the reversed characters of the token
currently being scanned. -/
def pySplitAux : List Char → List Char → List Line
  | [], acc => if acc.isEmpty then [] else [acc.reverse]
  | c :: cs, acc =>
    if isPyWs c then
      if acc.isEmpty then pySplitAux cs [] else acc.reverse :: pySplitAux cs []
    else pySplitAux cs (c :: acc)

/-- Model of Python `line.strip().split()`: split on runs of whitespace,
dropping empty tokens. -/
def pySplit (l : Line) : List Line := pySplitAux l []

/-- Worker for `parseDigits`: digits already consumed have value `acc`; a
single underscore is allowed between two digits, as in Python `int`. -/
def parseDigitsCore : Nat → List Char → Option Nat
  | acc, [] => some acc
  | acc, c :: cs =>
    if isDigitCh c then parseDigitsCore (10 * acc + digitVal c) cs
    else if c = '_' then
      match cs with
      | [] => none
      | d :: _ => if isDigitCh d then parseDigitsCore acc cs else none
    else none

/-- Parse a non-empty ASCII digit string (underscore separators allowed). -/
def parseDigits : List Char → Option Nat
  | [] => none
  | c :: cs => if isDigitCh c then parseDigitsCore (digitVal c) cs else none

/-- Model of Python `int(token)` on a whitespace-free token: an optional
sign followed by decimal digits.  Returns `none` when `int` would raise
`ValueError`. -/
def pyInt? (t : Line) : Option Int :=
  match t with
  | [] => none
  | c :: cs =>
    if c = '+' then (parseDigits cs).map (fun n => (n : Int))
    else if c = '-' then (parseDigits cs).map (fun n => -(n : Int))
    else (parseDigits (c :: cs)).map (fun n => (n : Int))

/-- Parse every token with `pyInt?`, failing if any token fails: the model of
a Python loop calling `int` on each token, where the first failure raises. -/
def parseAll : List Line → Option (List Int)
  | [] => some []
  | t :: ts =>
    match pyInt? t, parseAll ts with
    | some v, some vs => some (v :: vs)
    | _, _ => none

/-- Concatenation of a list of lists. -/
def catLists : List (List α) → List α
  | [] => []
  | l :: ls => l ++ catLists ls

/-- Fuel-bounded worker for `chunks`; `l.length` units of fuel always
suffice, so the out-of-fuel branch is never reached from `chunks`. -/
def chunksAux : Nat → Nat → List Nat → List (List Nat)
  | _, _, [] => []
  | _, 0, _ :: _ => []
  | 0, _ + 1, _ :: _ => []
  | fuel + 1, w + 1, x :: xs =>
    ((x :: xs).take (w + 1)) :: chunksAux fuel (w + 1) (xs.drop w)

/-- Slices `l[0:w], l[w:2w], ...` of the Python loop
`for i in range(0, len(l), w)`.  For `w = 0` and a non-empty list the Python
`range` call raises `ValueError`, so no slice is produced. -/
def chunks (w : Nat) (l : List Nat) : List (List Nat) :=
  chunksAux l.length w l

/-- The text file written by `convert_to_txt` in `convert_image.py`, given
the decoded raster data: header line `"{height} {width} 1"` followed by the
pixel rows, one row per line, space separated.  (For `width = 0` the Python
row loop raises after the header is written, leaving a header-only file,
which coincides with `chunks` producing no rows.) -/
def convertToTxt (height width : Nat) (pixels : List Nat) : List Line :=
  joinSp [natDigits height, natDigits width, natDigits 1] ::
    (chunks width pixels).map (fun row => joinSp (row.map natDigits))

/-- Why `convert_to_img` failed: which statement raised or returned early. -/
inductive ReadFail where
  /-- `if not header: print("Error: Empty file")` -/
  | emptyHeader
  /-- `if len(header) != 3: print("Error: Invalid header format")` -/
  | headerCount
  /-- `int` raised on a header token -/
  | headerParse
  /-- `int` raised on a pixel token -/
  | pixelParse
  /-- `Image.new` raised on a negative dimension -/
  | negSize
  /-- `img.putdata` raised: more data than `width*height` pixels -/
  | tooManyData
deriving Repr, DecidableEq

/-- Successful outcome of `convert_to_img`: the parsed header, the flat
pixel buffer read from the text, and the contents of the saved raster
(`Image.new` zero-fills, `putdata` overwrites the prefix). -/
structure ConvOk where
  height : Int
  width : Int
  channels : Int
  pixels : List Int
  imageData : List Int
deriving Repr, DecidableEq

/-- Terminal state of `convert_to_img`. -/
inductive ConvResult where
  | fail (e : ReadFail)
  | done (v : ConvOk)
deriving Repr, DecidableEq

/-- One run of `convert_to_img`: whether the pixel-count warning was
printed, and how the run ended. -/
structure ConvRun where
  warned : Bool
  result : ConvResult
deriving Repr, DecidableEq

/-- Body of `convert_to_img` once the first line has been split into header
tokens: validate the header, parse every pixel token of the remaining lines
with `int`, print the count warning when `len(pixels) != width * height`,
then build the raster. -/
def convertBody (header : List Line) (body : List Line) : ConvRun :=
  match header with
  | [] => ⟨false, .fail .emptyHeader⟩
  | [ht, wt, ct] =>
    match pyInt? ht, pyInt? wt, pyInt? ct with
    | some height, some width, some channels =>
      match parseAll (catLists (body.map pySplit)) with
      | none => ⟨false, .fail .pixelParse⟩
      | some pixels =>
        let warned : Bool := decide ((pixels.length : Int) ≠ width * height)
        if width < 0 ∨ height < 0 then ⟨warned, .fail .negSize⟩
        else if (width * height).toNat < pixels.length then
          ⟨warned, .fail .tooManyData⟩
        else
          ⟨warned, .done ⟨height, width, channels, pixels,
            pixels ++ List.replicate ((width * height).toNat - pixels.length) 0⟩⟩
    | _, _, _ => ⟨false, .fail .headerParse⟩
  | _ => ⟨false, .fail .headerCount⟩

/-- Model of `convert_to_img` in `convert_image.py`, from the text file's
lines to the run outcome: `f.readline().strip().split()` on the first line
(the empty file reads as an empty line), then the body loop over the
remaining lines. -/
def convertToImg (file : List Line) : ConvRun :=
  convertBody (pySplit (file.headD [])) file.tail

/-- The full text of a file, each line terminated by a newline. -/
def fileStr (f : List Line) : String :=
  String.mk (catLists (f.map (fun l => l ++ ['\n'])))

/-!  Generators.  Each `generate_*` function from
`Image Segmentation/generate_test_images.py` builds a numpy array; it is
modelled as the list of its rows.  The `create_*` functions from
`Edge Detection/generate_test_images.py` write the text file directly; the
grid of values they emit is modelled the same way, and where a claim needs
the file itself the file is assembled with `joinSp`/`natDigits` exactly as
the writer does.  Randomness is an external capability: every random draw
is passed in as an explicit argument or stream. -/

/-- Pixel grid of `create_gradient_image` (Edge Detection): horizontal
gradient `int((x / w) * 255)` with the vertical stripe inversion
`if x % 50 < 5: val = 255 - val`.  The float expression is modelled by the
exact integer floor `255 * x / w`; for the width 256 exercised by the
concrete claims the Python float arithmetic is exact and coincides. -/
def create_gradient_image (h w : Nat) : List (List Nat) :=
  (List.range h).map (fun _ =>
    (List.range w).map (fun x =>
      let val := 255 * x / w
      if x % 50 < 5 then 255 - val else val))

/-- Pixel grid of `create_checkerboard_image` (Edge Detection): value 200
when `(x // block_size) + (y // block_size)` is even, else 50. -/
def create_checkerboard_image (h w block_size : Nat) : List (List Nat) :=
  (List.range h).map (fun y =>
    (List.range w).map (fun x =>
      if (x / block_size + y / block_size) % 2 = 0 then 200 else 50))

/-- Pixel grid of `create_noisy_edges_image` (Edge Detection): horizontal
bands of base 180/60 from `(y // 64) % 2`, inverted where `x % 100 < 10`,
plus a noise draw (`random.randint(-20, 20)`), clamped by
`max(0, min(255, base + noise))`. -/
def create_noisy_edges_image (h w : Nat) (noise : Nat → Nat → Int) :
    List (List Nat) :=
  (List.range h).map (fun y =>
    (List.range w).map (fun x =>
      let band := (y / 64) % 2
      let base : Int := if band = 0 then 180 else 60
      let base2 : Int := if x % 100 < 10 then 255 - base else base
      (max 0 (min 255 (base2 + noise y x))).toNat))

/-- One rectangle draw of `create_shapes_image`:
`rx = randint(0, w-100)`, `ry = randint(0, h-100)`, `rw = randint(30, 100)`,
`rh = randint(30, 100)`, `val = randint(150, 250)`. -/
structure RectDraw where
  rx : Nat
  ry : Nat
  rw : Nat
  rh : Nat
  val : Nat
deriving Repr, DecidableEq

/-- One circle draw of `create_shapes_image`:
`cx = randint(50, w-50)`, `cy = randint(50, h-50)`, `r = randint(20, 50)`,
`val = randint(150, 250)`. -/
structure CircDraw where
  cx : Nat
  cy : Nat
  r : Nat
  val : Nat
deriving Repr, DecidableEq

/-- Stamp one rectangle onto a grid: the double loop
`for y in range(ry, min(ry + rh, h)): for x in range(rx, min(rx + rw, w))`. -/
def stampRect (h w : Nat) (d : RectDraw) (g : Nat → Nat → Nat) :
    Nat → Nat → Nat :=
  fun y x =>
    if d.ry ≤ y ∧ y < min (d.ry + d.rh) h ∧ d.rx ≤ x ∧ x < min (d.rx + d.rw) w
    then d.val else g y x

/-- Stamp one filled circle onto a grid: the double loop over
`range(max(0, cy - r), min(h, cy + r + 1))` and the corresponding x range,
with the membership test `(x - cx)**2 + (y - cy)**2 <= r**2`.  (Nat
subtraction `cy - r` equals Python `max(0, cy - r)` here.) -/
def stampCirc (h w : Nat) (d : CircDraw) (g : Nat → Nat → Nat) :
    Nat → Nat → Nat :=
  fun y x =>
    if d.cy - d.r ≤ y ∧ y < min h (d.cy + d.r + 1) ∧
        d.cx - d.r ≤ x ∧ x < min w (d.cx + d.r + 1) ∧
        ((x : Int) - d.cx) ^ 2 + ((y : Int) - d.cy) ^ 2 ≤ (d.r : Int) ^ 2
    then d.val else g y x

/-- Final pixel grid of `create_shapes_image`: dark background 50, then the
rectangles, then the circles, later stamps overwriting earlier values. -/
def shapesGrid (h w : Nat) (rects : List RectDraw) (circs : List CircDraw) :
    Nat → Nat → Nat :=
  circs.foldl (fun g d => stampCirc h w d g)
    (rects.foldl (fun g d => stampRect h w d g) (fun _ _ => 50))

/-- Model of `create_shapes_image` (Edge Detection).  The first draw is
`randint(0, w - 100)` and the second `randint(0, h - 100)`; when `w < 100`
or `h < 100` the empty range makes `randint` raise `ValueError` before the
output file is opened, so no file exists: that is the `none` case.
Otherwise the text file is the header plus one space-joined line per row. -/
def create_shapes_image (h w : Nat) (rects : List RectDraw)
    (circs : List CircDraw) : Option (List Line) :=
  if w < 100 ∨ h < 100 then none
  else
    some (joinSp [natDigits h, natDigits w, natDigits 1] ::
      (List.range h).map (fun y =>
        joinSp ((List.range w).map (fun x =>
          natDigits (shapesGrid h w rects circs y x)))))

/-- Pixel grid of `generate_bimodal_image` (Image Segmentation): left half
`bg_val`, right half `fg_val`, split at `width // 2`. -/
def generate_bimodal_image (width height bg_val fg_val : Nat) :
    List (List Nat) :=
  (List.range height).map (fun _ =>
    (List.range width).map (fun x =>
      if x < width / 2 then bg_val else fg_val))

/-- Pixel grid of `generate_circle_image` (Image Segmentation): `fg_val`
inside the disk of radius `min(width, height) // 3` centred at
`(height // 2, width // 2)`, else `bg_val`. -/
def generate_circle_image (width height bg_val fg_val : Nat) :
    List (List Nat) :=
  (List.range height).map (fun y =>
    (List.range width).map (fun x =>
      if ((x : Int) - width / 2) ^ 2 + ((y : Int) - height / 2) ^ 2 ≤
          ((min width height / 3 : Nat) : Int) ^ 2
      then fg_val else bg_val))

/-- Pixel grid of `generate_gradient_image` (Image Segmentation):
`int(255 * x / (width - 1))`, identical across rows.  The float division is
modelled by the exact integer floor `255 * x / (width - 1)`; for the width
256 exercised by the concrete claims the Python float arithmetic is exact
and coincides. -/
def generate_gradient_image (width height : Nat) : List (List Nat) :=
  (List.range height).map (fun _ =>
    (List.range width).map (fun x => 255 * x / (width - 1)))

/-- Pixel grid of `generate_checkerboard_image` (Image Segmentation):
`dark` when `(x // block_size) + (y // block_size)` is even, else
`bright`. -/
def generate_checkerboard_image (width height block_size dark bright : Nat) :
    List (List Nat) :=
  (List.range height).map (fun y =>
    (List.range width).map (fun x =>
      if (x / block_size + y / block_size) % 2 = 0 then dark else bright))

/-- Pixel grid of `generate_noisy_bimodal_image` (Image Segmentation): per-
region mean (`bg_mean` on the left half, `fg_mean` on the right) plus a
Gaussian draw, then `np.clip(img, 0, 255).astype(np.uint8)`.  The Gaussian
draws are modelled as an arbitrary integer noise stream. -/
def generate_noisy_bimodal_image (width height : Nat) (bg_mean fg_mean : Int)
    (noise : Nat → Nat → Int) : List (List Nat) :=
  (List.range height).map (fun y =>
    (List.range width).map (fun x =>
      (max 0 (min 255
        ((if x < width / 2 then bg_mean else fg_mean) + noise y x))).toNat))

/-- Pixel grid of `generate_three_level_image` (Image Segmentation): 30 on
`x < width // 3`, 128 on the middle third, 230 beyond `2 * (width // 3)`. -/
def generate_three_level_image (width height : Nat) : List (List Nat) :=
  (List.range height).map (fun _ =>
    (List.range width).map (fun x =>
      if x < width / 3 then 30
      else if x < 2 * (width / 3) then 128
      else 230))

/-- Pixel grid of `generate_large_test_image` (Image Segmentation): four
quadrants — gradient `int(255 * x / (width//2 - 1))`, solid 200, solid 50,
and `np.random.randint(0, 256)` draws, modelled by the stream `q4`. -/
def generate_large_test_image (width height : Nat) (q4 : Nat → Nat → Nat) :
    List (List Nat) :=
  (List.range height).map (fun y =>
    (List.range width).map (fun x =>
      if y < height / 2 then
        if x < width / 2 then 255 * x / (width / 2 - 1) else 200
      else
        if x < width / 2 then 50 else q4 y x))

/-- Pixel grid of `generate_very_large_image` (Image Segmentation): Gaussian
draws around 60 on the top half and 180 on the bottom half (modelled as
arbitrary integer streams), then `np.clip(img, 0, 255).astype(np.uint8)`. -/
def generate_very_large_image (width height : Nat)
    (top bot : Nat → Nat → Int) : List (List Nat) :=
  (List.range height).map (fun y =>
    (List.range width).map (fun x =>
      (max 0 (min 255 (if y < height / 2 then top y x else bot y x))).toNat))

/-- One pixel value of `create_bimodal_image`
(`Image Segmentation/generate_large_images.py`): a coin
`random.random() < 0.5` selecting `randint(20, 80)` or `randint(180, 240)`;
the two draws are passed in explicitly. -/
def create_bimodal_val (coin : Bool) (darkDraw brightDraw : Nat) : Nat :=
  if coin then darkDraw else brightDraw

/-- The text file written by `create_bimodal_image`: the header line
followed by `h * w` lines, each holding a single pixel value — the loop
`for i in range(h * w)` writes one value per line. -/
def create_bimodal_image (h w : Nat) (draw : Nat → Nat) : List Line :=
  joinSp [natDigits h, natDigits w, natDigits 1] ::
    (List.range (h * w)).map (fun i => natDigits (draw i))

/-- Outcome of the `__main__` dispatch of `convert_image.py`. -/
inductive MainOut where
  /-- usage text printed (fewer than 4 argv entries) -/
  | usage
  /-- `convert_to_txt` invoked -/
  | toTxtRun
  /-- `convert_to_img` invoked -/
  | toImgRun
  /-- `print("Unknown mode. ...")` reached -/
  | unknownMode
deriving Repr, DecidableEq

/-- Model of the `__main__` block of `convert_image.py`: what is executed
and the process exit status.  Only the `len(sys.argv) < 4` branch calls
`sys.exit(1)`; every other path (including the unknown-mode branch) falls
off the end of the script and exits with status 0. -/
def convertMain (argv : List String) : MainOut × Nat :=
  if argv.length < 4 then (MainOut.usage, 1)
  else if argv.getD 1 "" = "to_txt" then (MainOut.toTxtRun, 0)
  else if argv.getD 1 "" = "to_img" then (MainOut.toImgRun, 0)
  else (MainOut.unknownMode, 0)

/-- Did `convert_to_img` stop at the header stage — empty first line, wrong
token count, or `int` raising on a header token?  These are the outcomes the
specification groups as `HeaderError`. -/
def headerFailed (r : ConvRun) : Bool :=
  match r.result with
  | .fail .emptyHeader => true
  | .fail .headerCount => true
  | .fail .headerParse => true
  | _ => false

/-- Every value of a pixel grid lies in the byte range `[0, 255]`. -/
def allLe255 (g : List (List Nat)) : Prop :=
  ∀ row ∈ g, ∀ v ∈ row, v ≤ 255

/-! Helper lemmas about the textual primitives. -/

theorem natDigitsFuel_congr : ∀ f1 f2 n : Nat, n < f1 → n < f2 →
    natDigitsFuel f1 n = natDigitsFuel f2 n := by
  intro f1
  induction f1 with
  | zero => intro f2 n h1 _; omega
  | succ f1 ih =>
    intro f2 n h1 h2
    cases f2 with
    | zero => omega
    | succ f2 =>
      simp only [natDigitsFuel]
      split
      · rfl
      · rw [ih f2 (n / 10) (by omega) (by omega)]

theorem natDigits_unfold (n : Nat) :
    natDigits n = if n < 10 then [digitCh n]
      else natDigits (n / 10) ++ [digitCh (n % 10)] := by
  show natDigitsFuel (n + 1) n = _
  simp only [natDigitsFuel]
  split
  · rfl
  · rw [natDigitsFuel_congr n (n / 10 + 1) (n / 10) (by omega) (by omega)]
    rfl

theorem natDigits_ne_nil (n : Nat) : natDigits n ≠ [] := by
  rw [natDigits_unfold]
  split
  · simp
  · simp

theorem isDigitCh_digitCh (d : Nat) (h : d < 10) : isDigitCh (digitCh d) = true := by
  interval_cases d <;> decide

theorem digitVal_digitCh (d : Nat) (h : d < 10) : digitVal (digitCh d) = d := by
  interval_cases d <;> decide

theorem natDigits_digits (n : Nat) : ∀ c ∈ natDigits n, isDigitCh c = true := by
  induction n using Nat.strong_induction_on with
  | _ n ih =>
    rw [natDigits_unfold]
    split
    · intro c hc
      simp only [List.mem_singleton] at hc
      subst hc
      exact isDigitCh_digitCh n (by omega)
    · intro c hc
      rw [List.mem_append] at hc
      rcases hc with hc | hc
      · exact ih (n / 10) (Nat.div_lt_self (by omega) (by omega)) c hc
      · simp only [List.mem_singleton] at hc
        subst hc
        exact isDigitCh_digitCh (n % 10) (Nat.mod_lt _ (by omega))

theorem not_ws_of_digit (c : Char) (h : isDigitCh c = true) : isPyWs c = false := by
  simp only [isDigitCh, Bool.and_eq_true, decide_eq_true_eq] at h
  simp only [isPyWs, Bool.or_eq_false_iff, decide_eq_false_iff_not]
  omega

theorem natDigits_not_ws (n : Nat) : ∀ c ∈ natDigits n, isPyWs c = false :=
  fun c hc => not_ws_of_digit c (natDigits_digits n c hc)

theorem parseDigitsCore_digits (ds : List Char) :
    ∀ acc, (∀ c ∈ ds, isDigitCh c = true) →
      parseDigitsCore acc ds =
        some (ds.foldl (fun a c => 10 * a + digitVal c) acc) := by
  induction ds with
  | nil => intro acc _; rfl
  | cons c cs ih =>
    intro acc h
    have hc : isDigitCh c = true := h c (by simp)
    simp only [parseDigitsCore, hc, if_true, List.foldl_cons]
    exact ih _ (fun d hd => h d (by simp [hd]))

theorem parseDigits_digits (c : Char) (cs : List Char)
    (h : ∀ d ∈ c :: cs, isDigitCh d = true) :
    parseDigits (c :: cs) =
      some ((c :: cs).foldl (fun a d => 10 * a + digitVal d) 0) := by
  have hc : isDigitCh c = true := h c (by simp)
  simp only [parseDigits, hc, if_true, List.foldl_cons, Nat.mul_zero, Nat.zero_add]
  exact parseDigitsCore_digits cs (digitVal c) (fun d hd => h d (by simp [hd]))

theorem foldl_natDigits (n : Nat) :
    (natDigits n).foldl (fun a c => 10 * a + digitVal c) 0 = n := by
  induction n using Nat.strong_induction_on with
  | _ n ih =>
    rw [natDigits_unfold]
    split
    · rename_i h
      simp only [List.foldl_cons, List.foldl_nil, Nat.mul_zero, Nat.zero_add]
      exact digitVal_digitCh n h
    · rename_i h
      rw [List.foldl_append]
      rw [ih (n / 10) (Nat.div_lt_self (by omega) (by omega))]
      simp only [List.foldl_cons, List.foldl_nil]
      rw [digitVal_digitCh (n % 10) (Nat.mod_lt _ (by omega))]
      omega

theorem parseDigits_natDigits (n : Nat) : parseDigits (natDigits n) = some n := by
  rcases hd : natDigits n with _ | ⟨c, cs⟩
  · exact absurd hd (natDigits_ne_nil n)
  · have hall : ∀ d ∈ c :: cs, isDigitCh d = true := by
      rw [← hd]; exact natDigits_digits n
    rw [parseDigits_digits c cs hall, ← hd, foldl_natDigits]

theorem pyInt?_natDigits (n : Nat) : pyInt? (natDigits n) = some (n : Int) := by
  rcases hd : natDigits n with _ | ⟨c, cs⟩
  · exact absurd hd (natDigits_ne_nil n)
  · have hc : isDigitCh c = true := by
      have := natDigits_digits n c (by rw [hd]; simp)
      exact this
    have hc48 : 48 ≤ c.toNat ∧ c.toNat ≤ 57 := by
      simpa [isDigitCh, Bool.and_eq_true, decide_eq_true_eq] using hc
    have hplus : c ≠ '+' := by
      intro he; subst he; revert hc48; decide
    have hminus : c ≠ '-' := by
      intro he; subst he; revert hc48; decide
    simp only [pyInt?, hplus, hminus, if_false]
    rw [← hd, parseDigits_natDigits]
    rfl

theorem pySplitAux_no_ws_append (t rest : List Char) :
    ∀ acc, (∀ c ∈ t, isPyWs c = false) →
      pySplitAux (t ++ rest) acc = pySplitAux rest (t.reverse ++ acc) := by
  induction t with
  | nil => intro acc _; simp
  | cons c cs ih =>
    intro acc h
    have hc : isPyWs c = false := h c (by simp)
    have hstep : pySplitAux ((c :: cs) ++ rest) acc = pySplitAux (cs ++ rest) (c :: acc) := by
      simp [pySplitAux, hc]
    rw [hstep, ih (c :: acc) (fun d hd => h d (by simp [hd]))]
    simp

theorem pySplit_joinSp (toks : List Line)
    (hne : ∀ t ∈ toks, t ≠ [])
    (hws : ∀ t ∈ toks, ∀ c ∈ t, isPyWs c = false) :
    pySplit (joinSp toks) = toks := by
  induction toks with
  | nil => rfl
  | cons t ts ih =>
    cases ts with
    | nil =>
      show pySplitAux (joinSp [t]) [] = [t]
      have ht : t ≠ [] := hne t (by simp)
      have := pySplitAux_no_ws_append t [] [] (hws t (by simp))
      simp only [List.append_nil] at this
      rw [show joinSp [t] = t from rfl, this]
      simp only [pySplitAux]
      rw [if_neg]
      · simp
      · simp [List.isEmpty_iff, ht]
    | cons t2 ts2 =>
      show pySplitAux (joinSp (t :: t2 :: ts2)) [] = t :: t2 :: ts2
      have ht : t ≠ [] := hne t (by simp)
      rw [show joinSp (t :: t2 :: ts2) = t ++ (' ' :: joinSp (t2 :: ts2)) from rfl]
      rw [pySplitAux_no_ws_append t _ [] (hws t (by simp))]
      simp only [List.append_nil, pySplitAux]
      rw [if_pos (by decide)]
      rw [if_neg (by simp [List.isEmpty_iff, ht])]
      rw [List.reverse_reverse]
      have ih2 := ih (fun u hu => hne u (by simp [hu]))
        (fun u hu => hws u (by simp [hu]))
      rw [show pySplit (joinSp (t2 :: ts2)) = pySplitAux (joinSp (t2 :: ts2)) [] from rfl]
        at ih2
      rw [ih2]

theorem pySplit_natDigits_row (row : List Nat) :
    pySplit (joinSp (row.map natDigits)) = row.map natDigits := by
  apply pySplit_joinSp
  · intro t ht
    rw [List.mem_map] at ht
    rcases ht with ⟨v, _, rfl⟩
    exact natDigits_ne_nil v
  · intro t ht
    rw [List.mem_map] at ht
    rcases ht with ⟨v, _, rfl⟩
    exact natDigits_not_ws v

theorem parseAll_natDigits (l : List Nat) :
    parseAll (l.map natDigits) = some (l.map Int.ofNat) := by
  induction l with
  | nil => rfl
  | cons v vs ih =>
    have hv : pyInt? (natDigits v) = some (Int.ofNat v) := pyInt?_natDigits v
    simp only [List.map_cons, parseAll, hv, ih]

theorem catLists_map_map (f : α → β) (ls : List (List α)) :
    catLists (ls.map (List.map f)) = (catLists ls).map f := by
  induction ls with
  | nil => rfl
  | cons l ls ih => simp only [List.map_cons, catLists, ih, List.map_append]

theorem chunksAux_nil (f w : Nat) : chunksAux f w [] = [] := by
  cases f <;> cases w <;> rfl

theorem chunksAux_congr : ∀ f1 f2 w : Nat, ∀ l : List Nat,
    l.length ≤ f1 → l.length ≤ f2 → chunksAux f1 w l = chunksAux f2 w l := by
  intro f1
  induction f1 with
  | zero =>
    intro f2 w l h1 _
    have hnil : l = [] := by
      cases l with
      | nil => rfl
      | cons x xs => simp at h1
    subst hnil
    rw [chunksAux_nil, chunksAux_nil]
  | succ f1 ih =>
    intro f2 w l h1 h2
    cases l with
    | nil => rw [chunksAux_nil, chunksAux_nil]
    | cons x xs =>
      cases w with
      | zero =>
        cases f2 with
        | zero => simp at h2
        | succ f2 => rfl
      | succ w =>
        cases f2 with
        | zero => simp at h2
        | succ f2 =>
          simp only [chunksAux]
          rw [ih f2 (w + 1) (xs.drop w)
            (by rw [List.length_drop]; simp only [List.length_cons] at h1; omega)
            (by rw [List.length_drop]; simp only [List.length_cons] at h2; omega)]

theorem chunks_nil (w : Nat) : chunks w [] = [] :=
  chunksAux_nil 0 w

theorem chunks_cons (w : Nat) (x : Nat) (xs : List Nat) :
    chunks (w + 1) (x :: xs) =
      ((x :: xs).take (w + 1)) :: chunks (w + 1) (xs.drop w) := by
  show chunksAux (x :: xs).length (w + 1) (x :: xs) = _
  simp only [List.length_cons, chunksAux]
  rw [chunksAux_congr xs.length (xs.drop w).length (w + 1) (xs.drop w)
    (by rw [List.length_drop]; omega) (le_refl _)]
  rfl

theorem catLists_chunks (w : Nat) :
    ∀ fuel (l : List Nat), l.length ≤ fuel → 0 < w →
      catLists (chunks w l) = l := by
  intro fuel
  induction fuel with
  | zero =>
    intro l h1 _
    have hnil : l = [] := by
      cases l with
      | nil => rfl
      | cons x xs => simp at h1
    subst hnil
    rw [chunks_nil]; rfl
  | succ fuel ih =>
    intro l h1 hw
    cases l with
    | nil => rw [chunks_nil]; rfl
    | cons x xs =>
      cases w with
      | zero => omega
      | succ w =>
        rw [chunks_cons]
        simp only [catLists]
        rw [ih (xs.drop w)
          (by rw [List.length_drop]; simp only [List.length_cons] at h1; omega) hw]
        rw [show xs.drop w = (x :: xs).drop (w + 1) from rfl]
        exact List.take_append_drop _ _

theorem catLists_chunks_len (h w : Nat) (l : List Nat) (hl : l.length = h * w) :
    catLists (chunks w l) = l := by
  cases w with
  | zero =>
    have hnil : l = [] := by
      cases l with
      | nil => rfl
      | cons x xs => simp at hl
    subst hnil; rw [chunks_nil]; rfl
  | succ w => exact catLists_chunks (w + 1) l.length l (le_refl _) (by omega)

theorem chunks_length (w : Nat) :
    ∀ h l, List.length l = h * (w + 1) → (chunks (w + 1) l).length = h := by
  intro h
  induction h with
  | zero =>
    intro l hl
    have hnil : l = [] := by
      cases l with
      | nil => rfl
      | cons x xs => simp at hl
    subst hnil; rw [chunks_nil]; rfl
  | succ h ih =>
    intro l hl
    cases l with
    | nil => simp at hl
    | cons x xs =>
      rw [chunks_cons]
      simp only [List.length_cons]
      have hl2 : (x :: xs).length = h * (w + 1) + (w + 1) := by
        rw [hl, Nat.succ_mul]
      simp only [List.length_cons] at hl2
      have hdrop : (xs.drop w).length = h * (w + 1) := by
        rw [List.length_drop]; omega
      rw [ih (xs.drop w) hdrop]

theorem chunks_row_length (w : Nat) :
    ∀ h l, List.length l = h * (w + 1) →
      ∀ r ∈ chunks (w + 1) l, r.length = w + 1 := by
  intro h
  induction h with
  | zero =>
    intro l hl r hr
    have hnil : l = [] := by
      cases l with
      | nil => rfl
      | cons x xs => simp at hl
    subst hnil; rw [chunks_nil] at hr; simp at hr
  | succ h ih =>
    intro l hl r hr
    cases l with
    | nil => simp at hl
    | cons x xs =>
      rw [chunks_cons, List.mem_cons] at hr
      have hl2 : (x :: xs).length = h * (w + 1) + (w + 1) := by
        rw [hl, Nat.succ_mul]
      simp only [List.length_cons] at hl2
      have hdrop : (xs.drop w).length = h * (w + 1) := by
        rw [List.length_drop]; omega
      rcases hr with rfl | hr
      · rw [List.length_take]
        simp only [List.length_cons]
        omega
      · exact ih (xs.drop w) hdrop r hr

theorem pySplit_header (a b c : Nat) :
    pySplit (joinSp [natDigits a, natDigits b, natDigits c]) =
      [natDigits a, natDigits b, natDigits c] := by
  apply pySplit_joinSp
  · intro t ht
    simp only [List.mem_cons, List.not_mem_nil, or_false] at ht
    rcases ht with rfl | rfl | rfl <;> exact natDigits_ne_nil _
  · intro t ht
    simp only [List.mem_cons, List.not_mem_nil, or_false] at ht
    rcases ht with rfl | rfl | rfl <;> exact natDigits_not_ws _

theorem convertToImg_convertToTxt (h w : Nat) (pixels : List Nat)
    (hlen : pixels.length = h * w) :
    convertToImg (convertToTxt h w pixels) =
      ⟨false, .done ⟨(h : Int), (w : Int), 1,
        pixels.map Int.ofNat, pixels.map Int.ofNat⟩⟩ := by
  have hbody : catLists (((chunks w pixels).map
      (fun row => joinSp (row.map natDigits))).map pySplit) =
      pixels.map natDigits := by
    rw [List.map_map]
    have hcomp : (pySplit ∘ fun row => joinSp (row.map natDigits)) =
        fun row : List Nat => row.map natDigits := by
      funext row; exact pySplit_natDigits_row row
    rw [hcomp]
    rw [show (fun row : List Nat => row.map natDigits) =
      List.map natDigits from rfl]
    rw [catLists_map_map, catLists_chunks_len h w pixels hlen]
  simp only [convertToImg, convertToTxt, List.headD_cons, List.tail_cons]
  rw [pySplit_header]
  simp only [convertBody, pyInt?_natDigits]
  rw [hbody, parseAll_natDigits]
  have hmap : (pixels.map Int.ofNat).length = pixels.length := List.length_map _ _
  have hcast : ((pixels.length : Int)) = (w : Int) * (h : Int) := by
    rw [hlen]; push_cast; ring
  have hneg : ¬ ((w : Int) < 0 ∨ (h : Int) < 0) := by omega
  have htn : ((w : Int) * (h : Int)).toNat = w * h := by
    rw [show (w : Int) * (h : Int) = ((w * h : Nat) : Int) by push_cast; ring]
    exact Int.toNat_ofNat _
  have hnlt : ¬ (((w : Int) * (h : Int)).toNat < (pixels.map Int.ofNat).length) := by
    rw [htn, hmap, hlen]; omega
  have hwarn : (decide (((pixels.map Int.ofNat).length : Int) ≠ (w : Int) * (h : Int))) = false := by
    simp only [hmap, hcast, decide_not]
    simp
  simp only [hwarn, hneg, if_false, hnlt, htn, hmap, hlen]
  have hz : w * h - h * w = 0 := by omega
  rw [hz]
  simp only [List.replicate, List.append_nil]
  rw [if_neg (by omega)]
  have hcm : ((h : Int) * w) = (w : Int) * h := by ring
  simp [hcm]

theorem mul255_div_le (x w : Nat) (h : x ≤ w) : 255 * x / w ≤ 255 := by
  cases w with
  | zero => simp
  | succ w =>
    calc 255 * x / (w + 1) ≤ 255 * (w + 1) / (w + 1) :=
          Nat.div_le_div_right (Nat.mul_le_mul_left _ h)
      _ = 255 := Nat.mul_div_cancel _ (by omega)

theorem clamp_toNat_le (z : Int) : (max 0 (min 255 z)).toNat ≤ 255 := by
  have h1 : min 255 z ≤ 255 := min_le_left _ _
  have h2 : max 0 (min 255 z) ≤ 255 := max_le (by omega) h1
  omega

theorem pySplit_natDigits (v : Nat) : pySplit (natDigits v) = [natDigits v] := by
  have := pySplit_natDigits_row [v]
  simpa [joinSp] using this

theorem foldl_stampRect_val (h w : Nat) (rects : List RectDraw) :
    ∀ g : Nat → Nat → Nat,
      (∀ d ∈ rects, 150 ≤ d.val ∧ d.val ≤ 250) →
      (∀ y x, g y x = 50 ∨ (150 ≤ g y x ∧ g y x ≤ 250)) →
      ∀ y x, (rects.foldl (fun g d => stampRect h w d g) g) y x = 50 ∨
        (150 ≤ (rects.foldl (fun g d => stampRect h w d g) g) y x ∧
          (rects.foldl (fun g d => stampRect h w d g) g) y x ≤ 250) := by
  induction rects with
  | nil => intro g _ hg y x; exact hg y x
  | cons d ds ih =>
    intro g hd hg y x
    simp only [List.foldl_cons]
    apply ih (stampRect h w d g) (fun e he => hd e (by simp [he]))
    intro y2 x2
    simp only [stampRect]
    split
    · right; exact hd d (by simp)
    · exact hg y2 x2

theorem foldl_stampCirc_val (h w : Nat) (circs : List CircDraw) :
    ∀ g : Nat → Nat → Nat,
      (∀ d ∈ circs, 150 ≤ d.val ∧ d.val ≤ 250) →
      (∀ y x, g y x = 50 ∨ (150 ≤ g y x ∧ g y x ≤ 250)) →
      ∀ y x, (circs.foldl (fun g d => stampCirc h w d g) g) y x = 50 ∨
        (150 ≤ (circs.foldl (fun g d => stampCirc h w d g) g) y x ∧
          (circs.foldl (fun g d => stampCirc h w d g) g) y x ≤ 250) := by
  induction circs with
  | nil => intro g _ hg y x; exact hg y x
  | cons d ds ih =>
    intro g hd hg y x
    simp only [List.foldl_cons]
    apply ih (stampCirc h w d g) (fun e he => hd e (by simp [he]))
    intro y2 x2
    simp only [stampCirc]
    split
    · right; exact hd d (by simp)
    · exact hg y2 x2

theorem shapesGrid_val (h w : Nat) (rects : List RectDraw) (circs : List CircDraw)
    (hr : ∀ d ∈ rects, 150 ≤ d.val ∧ d.val ≤ 250)
    (hc : ∀ d ∈ circs, 150 ≤ d.val ∧ d.val ≤ 250) (y x : Nat) :
    shapesGrid h w rects circs y x = 50 ∨
      (150 ≤ shapesGrid h w rects circs y x ∧ shapesGrid h w rects circs y x ≤ 250) := by
  unfold shapesGrid
  apply foldl_stampCirc_val h w circs _ hc
  apply foldl_stampRect_val h w rects _ hr
  intro y2 x2
  left; rfl

theorem convertBody_done (header body : List Line) (r : ConvOk) (b : Bool)
    (hdone : convertBody header body = ⟨b, ConvResult.done r⟩) :
    b = decide ((r.pixels.length : Int) ≠ r.width * r.height) := by
  rcases header with _ | ⟨t1, _ | ⟨t2, _ | ⟨t3, _ | ⟨t4, rest⟩⟩⟩⟩
  · simp [convertBody] at hdone
  · simp [convertBody] at hdone
  · simp [convertBody] at hdone
  · rcases h1 : pyInt? t1 with _ | v1
    · simp [convertBody, h1] at hdone
    · rcases h2 : pyInt? t2 with _ | v2
      · simp [convertBody, h1, h2] at hdone
      · rcases h3 : pyInt? t3 with _ | v3
        · simp [convertBody, h1, h2, h3] at hdone
        · rcases hp : parseAll (catLists (body.map pySplit)) with _ | pixels
          · simp [convertBody, h1, h2, h3, hp] at hdone
          · simp only [convertBody, h1, h2, h3, hp] at hdone
            split at hdone
            · simp at hdone
            · split at hdone
              · simp at hdone
              · simp only [ConvRun.mk.injEq] at hdone
                obtain ⟨hb, hrec⟩ := hdone
                have hr2 := ConvResult.done.inj hrec
                subst hr2
                exact hb.symm
  · simp [convertBody] at hdone

theorem convertToImg_done (file : List Line) (r : ConvOk) (b : Bool)
    (hdone : convertToImg file = ⟨b, ConvResult.done r⟩) :
    b = decide ((r.pixels.length : Int) ≠ r.width * r.height) :=
  convertBody_done (pySplit (file.headD [])) file.tail r b hdone

theorem convertBody_headerFailed (header body : List Line) :
    headerFailed (convertBody header body) = true ↔
      (header = [] ∨ header.length ≠ 3 ∨ ∃ t ∈ header, pyInt? t = none) := by
  rcases header with _ | ⟨t1, _ | ⟨t2, _ | ⟨t3, _ | ⟨t4, rest⟩⟩⟩⟩
  · simp [convertBody, headerFailed]
  · simp [convertBody, headerFailed]
  · simp [convertBody, headerFailed]
  · rcases h1 : pyInt? t1 with _ | v1
    · simp [convertBody, h1, headerFailed]
    · rcases h2 : pyInt? t2 with _ | v2
      · simp [convertBody, h1, h2, headerFailed]
      · rcases h3 : pyInt? t3 with _ | v3
        · simp [convertBody, h1, h2, h3, headerFailed]
        · rcases hp : parseAll (catLists (body.map pySplit)) with _ | pixels
          · simp [convertBody, h1, h2, h3, hp, headerFailed]
          · simp only [convertBody, h1, h2, h3, hp]
            constructor
            · intro hf
              exfalso
              revert hf
              split
              · simp [headerFailed]
              · split
                · simp [headerFailed]
                · simp [headerFailed]
            · intro hr
              exfalso
              rcases hr with hr | hr | ⟨t, ht, hnone⟩
              · simp at hr
              · simp at hr
              · simp only [List.mem_cons, List.not_mem_nil, or_false] at ht
                rcases ht with rfl | rfl | rfl
                · rw [h1] at hnone; exact Option.noConfusion hnone
                · rw [h2] at hnone; exact Option.noConfusion hnone
                · rw [h3] at hnone; exact Option.noConfusion hnone
  · simp only [convertBody, headerFailed]
    constructor
    · intro _
      right; left
      simp only [List.length_cons]
      omega
    · intro _; trivial

/-! Claim theorems. -/

/-- Claim C1: for every grayscale raster image with height `H ≥ 0` and
width `W ≥ 0`, decoding it to a pixel matrix, writing the plaintext matrix
format, reading that text back, and encoding the result to a raster image
reproduces the original pixel values exactly, integer for integer.  The
decoded raster is the triple `(h, w, pixels)` with `pixels` in row-major
order; the run ends in `done` with no warning, the parsed buffer equals the
original pixels, and the encoded raster data equals the original pixels. -/
theorem claim_C1_roundtrip (h w : Nat) (pixels : List Nat)
    (hlen : pixels.length = h * w) (hrange : ∀ p ∈ pixels, p ≤ 255) :
    convertToImg (convertToTxt h w pixels) =
      ⟨false, .done ⟨(h : Int), (w : Int), 1,
        pixels.map Int.ofNat, pixels.map Int.ofNat⟩⟩ :=
  convertToImg_convertToTxt h w pixels hlen

/-- Witness for C1 at the concrete 2×2 image of scenario 1. -/
theorem claim_C1_roundtrip_witness :
    convertToImg (convertToTxt 2 2 [0, 85, 170, 255]) =
      ⟨false, .done ⟨2, 2, 1, [0, 85, 170, 255], [0, 85, 170, 255]⟩⟩ :=
  claim_C1_roundtrip 2 2 [0, 85, 170, 255] (by decide) (by decide)

/-- Claim C2, counterexample: the claim says the reader warns exactly when
the collected count differs from `height*width*channels`.  On the input
`"1 2 3\n7 8\n"` the count 2 differs from `1*2*3 = 6`, so the claim demands
a `PixelCountMismatch` warning; the code compares against
`width*height = 2`, prints no warning, and succeeds. -/
theorem claim_C2_counterexample :
    convertToImg ["1 2 3".data, "7 8".data] =
      ⟨false, .done ⟨1, 2, 3, [7, 8], [7, 8]⟩⟩ ∧ (2 : Int) ≠ 1 * 2 * 3 := by
  decide

/-- Claim C2, amended: the reader collects every whitespace-separated
integer into a flat buffer and warns exactly when the collected count
differs from `height * width` — the channel count is ignored by the
comparison.  The mismatch is non-fatal: reading `"2 2 1\n1 2 3\n"` warns
and still uses the 3-element buffer (padded with zeros in the raster). -/
theorem claim_C2_amended :
    (∀ (file : List Line) (r : ConvOk) (b : Bool),
        convertToImg file = ⟨b, ConvResult.done r⟩ →
        (b = true ↔ (r.pixels.length : Int) ≠ r.width * r.height)) ∧
      convertToImg ["2 2 1".data, "1 2 3".data] =
        ⟨true, .done ⟨2, 2, 1, [1, 2, 3], [1, 2, 3, 0]⟩⟩ := by
  constructor
  · intro file r b hdone
    rw [convertToImg_done file r b hdone]
    simp
  · decide

/-- Witness for C2 at the concrete scenario-3 input. -/
theorem claim_C2_amended_witness :
    (true = true ↔ (([1, 2, 3] : List Int).length : Int) ≠ 2 * 2) :=
  claim_C2_amended.1 ["2 2 1".data, "1 2 3".data]
    ⟨2, 2, 1, [1, 2, 3], [1, 2, 3, 0]⟩ true claim_C2_amended.2

/-- Claim C3, counterexample: the claim says a header containing a negative
integer such as `"-2 2 1"` is rejected with `HeaderError`.  The code parses
it with `int`, accepts the header, reads the pixels, prints the count
warning, and only fails later when `Image.new` rejects the negative
height — not a header failure. -/
theorem claim_C3_counterexample :
    headerFailed (convertToImg ["-2 2 1".data, "1 2 3".data]) = false ∧
      convertToImg ["-2 2 1".data, "1 2 3".data] = ⟨true, .fail .negSize⟩ := by
  decide

/-- Claim C3, amended: the read fails at the header stage exactly when the
first line is empty, does not split into exactly three tokens, or contains
a token `int` cannot parse (an optional sign followed by digits); a header
of negative integers passes the header stage, the failure — if any —
happening later.  Reading `"bad header\n"` is a header failure and
produces no matrix. -/
theorem claim_C3_amended :
    (∀ file : List Line,
        headerFailed (convertToImg file) = true ↔
          (pySplit (file.headD []) = [] ∨
            (pySplit (file.headD [])).length ≠ 3 ∨
            ∃ t ∈ pySplit (file.headD []), pyInt? t = none)) ∧
      convertToImg ["bad header".data] = ⟨false, .fail .headerCount⟩ := by
  constructor
  · intro file
    exact convertBody_headerFailed (pySplit (file.headD [])) file.tail
  · decide

/-- Witness for C3: reading `"bad header"` is a header-stage failure, by
the amended characterisation (two tokens, not three). -/
theorem claim_C3_amended_witness :
    headerFailed (convertToImg ["bad header".data]) = true :=
  (claim_C3_amended.1 ["bad header".data]).mpr (by decide)

/-- Claim C4, counterexample: the claim says the checkerboard value is
`bright` when `⌊x/b⌋ + ⌊y/b⌋` is even.  In `generate_checkerboard_image`
with `block_size = 2, dark = 0, bright = 255`, pixel `(0, 0)` has an even
block sum yet receives the dark value 0, not 255. -/
theorem claim_C4_counterexample :
    ((generate_checkerboard_image 4 4 2 0 255).headD []).headD 255 = 0 ∧
      (0 / 2 + 0 / 2) % 2 = 0 ∧ (0 : Nat) ≠ 255 := by
  decide

/-- Claim C4, amended: `generate_checkerboard_image` emits `dark` when
`⌊x/b⌋ + ⌊y/b⌋` is even and `bright` when it is odd; the Edge Detection
`create_checkerboard_image` (fixed values) emits 200 when the sum is even
and 50 when it is odd. -/
theorem claim_C4_amended (width height block_size dark bright y x : Nat)
    (hy : y < height) (hx : x < width) :
    (∀ (hy2 : y < (generate_checkerboard_image width height block_size dark bright).length)
        (hx2 : x < ((generate_checkerboard_image width height block_size dark bright).get
          ⟨y, hy2⟩).length),
        ((generate_checkerboard_image width height block_size dark bright).get
            ⟨y, hy2⟩).get ⟨x, hx2⟩ =
          if (x / block_size + y / block_size) % 2 = 0 then dark else bright) ∧
      (∀ (hy3 : y < (create_checkerboard_image height width block_size).length)
          (hx3 : x < ((create_checkerboard_image height width block_size).get
            ⟨y, hy3⟩).length),
          ((create_checkerboard_image height width block_size).get
              ⟨y, hy3⟩).get ⟨x, hx3⟩ =
            if (x / block_size + y / block_size) % 2 = 0 then 200 else 50) := by
  constructor
  · intro hy2 hx2
    simp [generate_checkerboard_image, List.get_eq_getElem]
  · intro hy3 hx3
    simp [create_checkerboard_image, List.get_eq_getElem]

/-- Witness for C4 at block size 2 on a 4×4 grid: pixel `(0, 2)` has odd
block sum, giving `bright = 255` in the parameterised generator and 50 in
the Edge Detection one. -/
theorem claim_C4_amended_witness :
    ((generate_checkerboard_image 4 4 2 0 255).get ⟨0, by decide⟩).get
        ⟨2, by decide⟩ = 255 ∧
      ((create_checkerboard_image 4 4 2).get ⟨0, by decide⟩).get
        ⟨2, by decide⟩ = 50 := by
  constructor
  · rw [(claim_C4_amended 4 4 2 0 255 0 2 (by decide) (by decide)).1
      (by decide) (by decide)]
    decide
  · rw [(claim_C4_amended 4 4 2 0 255 0 2 (by decide) (by decide)).2
      (by decide) (by decide)]
    decide

/-- Claim C5: the checkerboard generator invoked with
`block_size = 2, dark = 0, bright = 255` on a 4×4 grid produces exactly the
four rows of scenario 2 (dark block at the top-left). -/
theorem claim_C5_checkerboard_4x4 :
    generate_checkerboard_image 4 4 2 0 255 =
      [[0, 0, 255, 255], [0, 0, 255, 255],
        [255, 255, 0, 0], [255, 255, 0, 0]] := by
  decide

/-- Claim C7, counterexample: the claim says every emitted plaintext file
has exactly `height` lines after the header.  `create_bimodal_image` on a
2×2 grid writes one pixel per line: 1 header + 4 body lines, not 1 + 2. -/
theorem claim_C7_counterexample :
    (create_bimodal_image 2 2 (fun _ => 20)).length = 5 ∧ (5 : Nat) ≠ 1 + 2 := by
  decide

/-- Claim C7, amended: the text writer `convert_to_txt` emits the header
followed by exactly `height` lines of `width` integers (for positive
width), and the 2×2 grayscale matrix of scenario 1 encodes to exactly
`"2 2 1\n0 85\n170 255\n"`; but `create_bimodal_image` instead emits
`height * width` body lines holding one integer each. -/
theorem claim_C7_amended (h w : Nat) (pixels : List Nat) (hw : 0 < w)
    (hlen : pixels.length = h * w) :
    ((convertToTxt h w pixels).length = 1 + h ∧
        ∀ line ∈ (convertToTxt h w pixels).tail, (pySplit line).length = w) ∧
      (∀ (hh ww : Nat) (draw : Nat → Nat),
          (create_bimodal_image hh ww draw).length = 1 + hh * ww ∧
            ∀ line ∈ (create_bimodal_image hh ww draw).tail,
              (pySplit line).length = 1) ∧
      fileStr (convertToTxt 2 2 [0, 85, 170, 255]) = "2 2 1\n0 85\n170 255\n" := by
  refine ⟨⟨?_, ?_⟩, fun hh ww draw => ⟨?_, ?_⟩, ?_⟩
  · simp only [convertToTxt, List.length_cons, List.length_map]
    rcases w with _ | w
    · omega
    · rw [chunks_length w h pixels hlen]
      omega
  · intro line hline
    simp only [convertToTxt, List.tail_cons, List.mem_map] at hline
    obtain ⟨row, hrow, rfl⟩ := hline
    rw [pySplit_natDigits_row row, List.length_map]
    rcases w with _ | w
    · omega
    · exact chunks_row_length w h pixels hlen row hrow
  · simp only [create_bimodal_image, List.length_cons, List.length_map,
      List.length_range]
    omega
  · intro line hline
    simp only [create_bimodal_image, List.tail_cons, List.mem_map] at hline
    obtain ⟨i, _, rfl⟩ := hline
    rw [pySplit_natDigits (draw i)]
    rfl
  · decide

/-- Witness for C7 at the scenario-1 image. -/
theorem claim_C7_amended_witness :
    (convertToTxt 2 2 [0, 85, 170, 255]).length = 1 + 2 ∧
      fileStr (convertToTxt 2 2 [0, 85, 170, 255]) = "2 2 1\n0 85\n170 255\n" :=
  ⟨(claim_C7_amended 2 2 [0, 85, 170, 255] (by decide) (by decide)).1.1,
    (claim_C7_amended 2 2 [0, 85, 170, 255] (by decide) (by decide)).2.2⟩

/-- Claim C9, counterexample: the claim says an unrecognized mode exits
with a non-zero status.  With four arguments and the unknown mode
`"frobnicate"`, the script prints the unknown-mode message and falls off
the end of `__main__`, exiting with status 0. -/
theorem claim_C9_counterexample :
    convertMain ["convert_image.py", "frobnicate", "a.txt", "b.png"] =
      (MainOut.unknownMode, 0) := by
  decide

/-- Claim C9, amended: fewer than four `argv` entries prints the usage text
and exits with status 1; an unrecognized mode prints the unknown-mode
message but exits with status 0. -/
theorem claim_C9_amended (argv : List String) :
    (argv.length < 4 → convertMain argv = (MainOut.usage, 1)) ∧
      (4 ≤ argv.length → argv.getD 1 "" ≠ "to_txt" → argv.getD 1 "" ≠ "to_img" →
        convertMain argv = (MainOut.unknownMode, 0)) := by
  constructor
  · intro h4
    unfold convertMain
    rw [if_pos h4]
  · intro h4 ht hi
    unfold convertMain
    rw [if_neg (by omega), if_neg ht, if_neg hi]

/-- Witness for C9: a one-argument call and an unknown-mode call. -/
theorem claim_C9_amended_witness :
    convertMain ["convert_image.py"] = (MainOut.usage, 1) ∧
      convertMain ["convert_image.py", "zzz", "a", "b"] =
        (MainOut.unknownMode, 0) :=
  ⟨(claim_C9_amended ["convert_image.py"]).1 (by decide),
    (claim_C9_amended ["convert_image.py", "zzz", "a", "b"]).2
      (by decide) (by decide) (by decide)⟩

/-- Claim C6, counterexample: the claim says the gradient value at column
`x` is `⌊255·x/w⌋` (inverted only in the band `x % 50 < 5`), and that with
`w = 256` the generated values satisfy `value(0) = 0` and
`value(255) = 254`.  The Edge Detection generator inverts at `x = 0`
(`0 % 50 < 5`), giving `value(0) = 255`; the Image Segmentation generator
divides by `w - 1`, giving `value(255) = 255` and `value(1) = 1` instead of
`⌊255/256⌋ = 0`. -/
theorem claim_C6_counterexample :
    ((create_gradient_image 1 256).headD []).headD 7 = 255 ∧
      ((generate_gradient_image 256 1).headD []).getD 255 7 = 255 ∧
      ((generate_gradient_image 256 1).headD []).getD 1 7 = 1 := by
  decide

/-- Claim C6, amended: the Edge Detection gradient value at `(y, x)` is
`⌊255·x/w⌋`, replaced by `255` minus that in the bands `x % 50 < 5`; the
Image Segmentation gradient value is `⌊255·x/(w-1)⌋` with no bands.  Both
base formulas are monotone, so values are non-decreasing outside the
inversion bands.  With `w = 256`: the Edge variant has `value(0) = 255`
(band-inverted) and `value(255) = 254`; the Segmentation variant has
`value(0) = 0` and `value(255) = 255`. -/
theorem claim_C6_amended (h w y x : Nat) (hy : y < h) (hx : x < w) :
    (∀ (hy2 : y < (create_gradient_image h w).length)
        (hx2 : x < ((create_gradient_image h w).get ⟨y, hy2⟩).length),
        ((create_gradient_image h w).get ⟨y, hy2⟩).get ⟨x, hx2⟩ =
          if x % 50 < 5 then 255 - 255 * x / w else 255 * x / w) ∧
      (∀ (hy2 : y < (generate_gradient_image w h).length)
          (hx2 : x < ((generate_gradient_image w h).get ⟨y, hy2⟩).length),
          ((generate_gradient_image w h).get ⟨y, hy2⟩).get ⟨x, hx2⟩ =
            255 * x / (w - 1)) ∧
      (∀ x1 x2 : Nat, x1 ≤ x2 → ¬ x1 % 50 < 5 → ¬ x2 % 50 < 5 →
        255 * x1 / w ≤ 255 * x2 / w) ∧
      (∀ x1 x2 : Nat, x1 ≤ x2 → 255 * x1 / (w - 1) ≤ 255 * x2 / (w - 1)) ∧
      (((create_gradient_image 1 256).headD []).headD 7 = 255 ∧
        ((create_gradient_image 1 256).headD []).getD 255 7 = 254 ∧
        ((generate_gradient_image 256 1).headD []).headD 7 = 0 ∧
        ((generate_gradient_image 256 1).headD []).getD 255 7 = 255) := by
  refine ⟨?_, ?_, ?_, ?_, by decide⟩
  · intro hy2 hx2
    simp [create_gradient_image, List.get_eq_getElem]
  · intro hy2 hx2
    simp [generate_gradient_image, List.get_eq_getElem]
  · intro x1 x2 h12 _ _
    exact Nat.div_le_div_right (Nat.mul_le_mul_left _ h12)
  · intro x1 x2 h12
    exact Nat.div_le_div_right (Nat.mul_le_mul_left _ h12)

set_option maxRecDepth 4000 in
/-- Witness for C6 at `(y, x) = (0, 7)` on a 1×256 grid (outside the
inversion band, `255·7/256 = 6`). -/
theorem claim_C6_amended_witness :
    ((create_gradient_image 1 256).get ⟨0, by decide⟩).get ⟨7, by decide⟩ = 6 := by
  rw [(claim_C6_amended 1 256 0 7 (by decide) (by decide)).1 (by decide) (by decide)]
  decide

/-- Claim C8: every pixel value emitted by every generator — the Edge
Detection gradient, checkerboard, noisy-edges and shapes generators, the
Image Segmentation bimodal, circle, gradient, checkerboard, noisy-bimodal,
three-level, large mixed and very-large generators, and the large bimodal
generator — is an integer in `[0, 255]`, for all requested dimensions and
for every random draw (draws from `randint(a, b)` are assumed inside
`[a, b]`, Gaussian draws are arbitrary, and caller-supplied levels are
assumed inside `[0, 255]`). -/
theorem claim_C8_range :
    (∀ h w, allLe255 (create_gradient_image h w)) ∧
      (∀ h w b, allLe255 (create_checkerboard_image h w b)) ∧
      (∀ h w noise, allLe255 (create_noisy_edges_image h w noise)) ∧
      (∀ h w rects circs, (∀ d ∈ rects, 150 ≤ RectDraw.val d ∧ RectDraw.val d ≤ 250) →
        (∀ d ∈ circs, 150 ≤ CircDraw.val d ∧ CircDraw.val d ≤ 250) →
        ∀ y x, shapesGrid h w rects circs y x ≤ 255) ∧
      (∀ w h bg fg, bg ≤ 255 → fg ≤ 255 →
        allLe255 (generate_bimodal_image w h bg fg)) ∧
      (∀ w h bg fg, bg ≤ 255 → fg ≤ 255 →
        allLe255 (generate_circle_image w h bg fg)) ∧
      (∀ w h, allLe255 (generate_gradient_image w h)) ∧
      (∀ w h b dark bright, dark ≤ 255 → bright ≤ 255 →
        allLe255 (generate_checkerboard_image w h b dark bright)) ∧
      (∀ w h bg fg noise, allLe255 (generate_noisy_bimodal_image w h bg fg noise)) ∧
      (∀ w h, allLe255 (generate_three_level_image w h)) ∧
      (∀ w h q4, (∀ y x, q4 y x ≤ 255) →
        allLe255 (generate_large_test_image w h q4)) ∧
      (∀ w h top bot, allLe255 (generate_very_large_image w h top bot)) ∧
      (∀ coin d1 d2, 20 ≤ d1 → d1 ≤ 80 → 180 ≤ d2 → d2 ≤ 240 →
        create_bimodal_val coin d1 d2 ≤ 255) := by
  refine ⟨?_, ?_, ?_, ?_, ?_, ?_, ?_, ?_, ?_, ?_, ?_, ?_, ?_⟩
  · intro h w row hrow v hv
    simp only [create_gradient_image, List.mem_map, List.mem_range] at hrow
    obtain ⟨y, hy, rfl⟩ := hrow
    simp only [List.mem_map, List.mem_range] at hv
    obtain ⟨x, hx, rfl⟩ := hv
    show (if x % 50 < 5 then 255 - 255 * x / w else 255 * x / w) ≤ 255
    split
    · exact Nat.sub_le _ _
    · exact mul255_div_le x w (by omega)
  · intro h w b row hrow v hv
    simp only [create_checkerboard_image, List.mem_map, List.mem_range] at hrow
    obtain ⟨y, hy, rfl⟩ := hrow
    simp only [List.mem_map, List.mem_range] at hv
    obtain ⟨x, hx, rfl⟩ := hv
    split <;> omega
  · intro h w noise row hrow v hv
    simp only [create_noisy_edges_image, List.mem_map, List.mem_range] at hrow
    obtain ⟨y, hy, rfl⟩ := hrow
    simp only [List.mem_map, List.mem_range] at hv
    obtain ⟨x, hx, rfl⟩ := hv
    exact clamp_toNat_le _
  · intro h w rects circs hr hc y x
    rcases shapesGrid_val h w rects circs hr hc y x with h50 | ⟨_, hhi⟩ <;> omega
  · intro w h bg fg hbg hfg row hrow v hv
    simp only [generate_bimodal_image, List.mem_map, List.mem_range] at hrow
    obtain ⟨y, hy, rfl⟩ := hrow
    simp only [List.mem_map, List.mem_range] at hv
    obtain ⟨x, hx, rfl⟩ := hv
    split <;> omega
  · intro w h bg fg hbg hfg row hrow v hv
    simp only [generate_circle_image, List.mem_map, List.mem_range] at hrow
    obtain ⟨y, hy, rfl⟩ := hrow
    simp only [List.mem_map, List.mem_range] at hv
    obtain ⟨x, hx, rfl⟩ := hv
    split <;> omega
  · intro w h row hrow v hv
    simp only [generate_gradient_image, List.mem_map, List.mem_range] at hrow
    obtain ⟨y, hy, rfl⟩ := hrow
    simp only [List.mem_map, List.mem_range] at hv
    obtain ⟨x, hx, rfl⟩ := hv
    exact mul255_div_le x (w - 1) (by omega)
  · intro w h b dark bright hd hb row hrow v hv
    simp only [generate_checkerboard_image, List.mem_map, List.mem_range] at hrow
    obtain ⟨y, hy, rfl⟩ := hrow
    simp only [List.mem_map, List.mem_range] at hv
    obtain ⟨x, hx, rfl⟩ := hv
    split <;> omega
  · intro w h bg fg noise row hrow v hv
    simp only [generate_noisy_bimodal_image, List.mem_map, List.mem_range] at hrow
    obtain ⟨y, hy, rfl⟩ := hrow
    simp only [List.mem_map, List.mem_range] at hv
    obtain ⟨x, hx, rfl⟩ := hv
    exact clamp_toNat_le _
  · intro w h row hrow v hv
    simp only [generate_three_level_image, List.mem_map, List.mem_range] at hrow
    obtain ⟨y, hy, rfl⟩ := hrow
    simp only [List.mem_map, List.mem_range] at hv
    obtain ⟨x, hx, rfl⟩ := hv
    split
    · omega
    · split <;> omega
  · intro w h q4 hq row hrow v hv
    simp only [generate_large_test_image, List.mem_map, List.mem_range] at hrow
    obtain ⟨y, hy, rfl⟩ := hrow
    simp only [List.mem_map, List.mem_range] at hv
    obtain ⟨x, hx, rfl⟩ := hv
    split
    · split
      · rename_i hx2
        exact mul255_div_le x (w / 2 - 1) (by omega)
      · omega
    · split
      · omega
      · exact hq y x
  · intro w h top bot row hrow v hv
    simp only [generate_very_large_image, List.mem_map, List.mem_range] at hrow
    obtain ⟨y, hy, rfl⟩ := hrow
    simp only [List.mem_map, List.mem_range] at hv
    obtain ⟨x, hx, rfl⟩ := hv
    exact clamp_toNat_le _
  · intro coin d1 d2 h1 h2 h3 h4
    unfold create_bimodal_val
    split <;> omega

/-- Witness for C8: concrete instantiations of each generator, with all
draw and parameter hypotheses discharged on concrete values. -/
theorem claim_C8_range_witness :
    allLe255 (create_gradient_image 2 2) ∧
      allLe255 (create_checkerboard_image 2 2 1) ∧
      allLe255 (create_noisy_edges_image 2 2 (fun _ _ => 7)) ∧
      (∀ y x, shapesGrid 100 100 [⟨0, 0, 30, 30, 150⟩] [⟨50, 50, 20, 200⟩] y x ≤ 255) ∧
      allLe255 (generate_bimodal_image 2 2 50 200) ∧
      allLe255 (generate_circle_image 2 2 30 220) ∧
      allLe255 (generate_gradient_image 2 2) ∧
      allLe255 (generate_checkerboard_image 2 2 1 0 255) ∧
      allLe255 (generate_noisy_bimodal_image 2 2 60 200 (fun _ _ => 3)) ∧
      allLe255 (generate_three_level_image 2 2) ∧
      allLe255 (generate_large_test_image 2 2 (fun _ _ => 9)) ∧
      allLe255 (generate_very_large_image 2 2 (fun _ _ => 5) (fun _ _ => 6)) ∧
      create_bimodal_val true 20 180 ≤ 255 := by
  obtain ⟨c1, c2, c3, c4, c5, c6, c7, c8, c9, c10, c11, c12, c13⟩ := claim_C8_range
  exact ⟨c1 2 2, c2 2 2 1, c3 2 2 _,
    c4 100 100 _ _ (by decide) (by decide),
    c5 2 2 50 200 (by decide) (by decide),
    c6 2 2 30 220 (by decide) (by decide),
    c7 2 2, c8 2 2 1 0 255 (by decide) (by decide), c9 2 2 60 200 _,
    c10 2 2, c11 2 2 _ (fun _ _ => by decide), c12 2 2 _ _,
    c13 true 20 180 (by decide) (by decide) (by decide) (by decide)⟩

/-- Claim C10: `create_shapes_image` has an undocumented minimum-size
precondition.  For `height ≥ 100` and `width ≥ 100` it succeeds, writing a
header plus `height` lines of `width` values, each value 50 (background) or
a shape fill in `[150, 250]`; for `height < 100` or `width < 100` the first
`randint` draw is over an empty range and raises before the output file is
opened, so no file content is written. -/
theorem claim_C10_shapes (h w : Nat) (rects : List RectDraw) (circs : List CircDraw)
    (hr : ∀ d ∈ rects, 150 ≤ RectDraw.val d ∧ RectDraw.val d ≤ 250)
    (hc : ∀ d ∈ circs, 150 ≤ CircDraw.val d ∧ CircDraw.val d ≤ 250) :
    (100 ≤ h → 100 ≤ w →
      ∃ file, create_shapes_image h w rects circs = some file ∧
        file.length = 1 + h ∧
        (∀ line ∈ file.tail, (pySplit line).length = w) ∧
        (∀ y x, shapesGrid h w rects circs y x = 50 ∨
          (150 ≤ shapesGrid h w rects circs y x ∧
            shapesGrid h w rects circs y x ≤ 250))) ∧
    (h < 100 ∨ w < 100 → create_shapes_image h w rects circs = none) := by
  constructor
  · intro hh hw
    have hne : ¬ (w < 100 ∨ h < 100) := by omega
    refine ⟨_, by unfold create_shapes_image; rw [if_neg hne], ?_, ?_, ?_⟩
    · simp only [List.length_cons, List.length_map, List.length_range]
      omega
    · intro line hline
      simp only [List.tail_cons, List.mem_map, List.mem_range] at hline
      obtain ⟨y, hy, rfl⟩ := hline
      rw [show (List.range w).map (fun x => natDigits (shapesGrid h w rects circs y x)) =
        ((List.range w).map (fun x => shapesGrid h w rects circs y x)).map natDigits by
          rw [List.map_map]; rfl]
      rw [pySplit_natDigits_row]
      simp
    · intro y x
      exact shapesGrid_val h w rects circs hr hc y x
  · intro hlt
    unfold create_shapes_image
    rw [if_pos (by omega)]

/-- Witness for C10: at the minimal legal size 100×100 the generator
produces a file of 101 lines; at 50×50 it fails before writing. -/
theorem claim_C10_shapes_witness :
    (∃ file, create_shapes_image 100 100
        (List.replicate 5 (⟨0, 0, 30, 30, 150⟩ : RectDraw))
        (List.replicate 3 (⟨50, 50, 20, 150⟩ : CircDraw)) = some file ∧
        file.length = 1 + 100) ∧
      create_shapes_image 50 50
        (List.replicate 5 (⟨0, 0, 30, 30, 150⟩ : RectDraw))
        (List.replicate 3 (⟨50, 50, 20, 150⟩ : CircDraw)) = none := by
  constructor
  · obtain ⟨file, h1, h2, _⟩ :=
      (claim_C10_shapes 100 100 (List.replicate 5 (⟨0, 0, 30, 30, 150⟩ : RectDraw))
        (List.replicate 3 (⟨50, 50, 20, 150⟩ : CircDraw))
        (by decide) (by decide)).1 (by omega) (by omega)
    exact ⟨file, h1, h2⟩
  · exact (claim_C10_shapes 50 50 (List.replicate 5 (⟨0, 0, 30, 30, 150⟩ : RectDraw))
      (List.replicate 3 (⟨50, 50, 20, 150⟩ : CircDraw))
      (by decide) (by decide)).2 (by omega)

end PPA
